import Mathlib

/-!
Verification development for the Gemini research assistant
(`gemini_deep_research.py`): a shallow embedding of the Model Directory
Resolver (`list_models`), the Report Generator error path (`run_gemini`),
and the document export (`make_word_document`), with theorems checking the
specification's testable properties against this embedding.

Python conventions modelled explicitly:
  * `None`-or-absent string fields/attributes are `Option String`, where
    `none` stands for "absent, or present with value None";
  * Python truthiness of such a value (`if name:` / `x or y`) is
    `pyTruthy`: `none` and the empty string are falsy;
  * `x or y` on these values is `pyOr` (first truthy operand, else the
    second operand);
  * a container field holding a list is `Option (List Entry)`; its Python
    truthiness (`resp.get("models") or ...`) is `listTruthy`: absent/None
    and the empty list are falsy.
-/

/-- Python truthiness of an optional string: `None` and `""` are falsy. -/
def pyTruthy : Option String → Bool
  | none => false
  | some s => !s.isEmpty

/-- Python `a or b` on optional strings: `a` if truthy, else `b`. -/
def pyOr (a b : Option String) : Option String :=
  if pyTruthy a then a else b

/-- One individual model entry of a directory response.  `dict` is a Python
dict with optional `"name"`/`"id"` keys (`m.get(...)`); `obj` is an object
with optional `name`/`id` attributes (`getattr(m, ..., None)`). -/
inductive Entry where
  | dict (name id : Option String)
  | obj (name id : Option String)
deriving DecidableEq, Repr

/-- Whether an entry is an attribute-style (object) entry. -/
def Entry.isObj : Entry → Bool
  | .dict _ _ => false
  | .obj _ _ => true

/-- Entry lacks both a name and an id (line 41 of the spec: "missing both
name and id"). -/
def Entry.lacksBoth : Entry → Bool
  | .dict none none => true
  | .obj none none => true
  | _ => false

/-- Python truthiness of an optional entry list: `None` and `[]` are falsy. -/
def listTruthy : Option (List Entry) → Bool
  | none => false
  | some l => !l.isEmpty

/-- Python `a or b or c or []` on optional entry lists (first truthy
operand, else `[]`). -/
def pickList (a b c : Option (List Entry)) : List Entry :=
  if listTruthy a then a.getD []
  else if listTruthy b then b.getD []
  else if listTruthy c then c.getD []
  else []

/-- Identifier extraction used in the mapping-shaped branch
(`gemini_deep_research.py` line 71): for a dict entry
`m.get("name") or m.get("id")`, for an object entry
`getattr(m, "name", None) or getattr(m, "id", None)`. -/
def extractDictShape : Entry → Option String
  | .dict n i => pyOr n i
  | .obj n i => pyOr n i

/-- Identifier extraction used in the list-shaped branch (line 78): for a
dict entry only `m.get("name")` (the Python conditional expression binds
the `or getattr(m, "id", None)` to the else-arm only), for an object entry
`getattr(m, "name", None) or getattr(m, "id", None)`. -/
def extractListShape : Entry → Option String
  | .dict n _ => n
  | .obj n i => pyOr n i

/-- Identifier extraction used while iterating an opaque response
(lines 86-91): name-then-id for both dict and object entries. -/
def extractIterShape : Entry → Option String
  | .dict n i => pyOr n i
  | .obj n i => pyOr n i

/-- Identifier extraction used in the attribute-fallback branch (line 98):
like line 78, a dict entry is only consulted for `m.get("name")`. -/
def extractFallbackShape : Entry → Option String
  | .dict n _ => n
  | .obj n i => pyOr n i

/-- The `models.append(name)` loop body: keep the extracted identifier when
it is truthy (`if name:`). -/
def collect (f : Entry → Option String) (l : List Entry) : List String :=
  l.filterMap fun m =>
    let n := f m
    if pyTruthy n then n else none

/-- A raw directory response, by shape:
  * `dict ms m d`: a Python dict; the candidate list is
    `resp.get("models") or resp.get("model") or resp.get("data") or []`
    (line 69);
  * `list l`: a Python list of entries (line 76);
  * `iterOk l`: an opaque object whose iteration succeeds, yielding `l`
    (lines 84-93);
  * `iterFail it msg ms d m`: an opaque object whose iteration yields the
    entries `it` and then raises an exception with message `msg`; the
    handler falls back to
    `getattr(resp, "models", None) or getattr(resp, "data", None) or
    getattr(resp, "model", None) or []` (lines 94-100).

This type covers responses whose truthy candidate containers are iterable
entry lists; on that subdomain normalization cannot raise.  A truthy
non-iterable models/model/data value (which makes line 70 or line 97
raise an uncaught `TypeError`) is representable by the refinement `RespF`
below, and `normalizeF_extends_normalize` shows the two normalizers agree
here. -/
inductive Resp where
  | dict (models model data : Option (List Entry))
  | list (entries : List Entry)
  | iterOk (entries : List Entry)
  | iterFail (iterated : List Entry) (msg : String)
      (models data model : Option (List Entry))
deriving DecidableEq, Repr

/-- Sorted-insert with deduplication over strings, by the lexicographic
string order. -/
def insertSorted (s : String) : List String → List String
  | [] => [s]
  | t :: ts =>
    if s = t then t :: ts
    else if s < t then s :: t :: ts
    else t :: insertSorted s ts

/-- Python `sorted(set(l))`: the deduplicated, lexicographically sorted
list of the elements of `l` (line 105). -/
def sortedDedup (l : List String) : List String :=
  l.foldr insertSorted []

/-- Normalization step of `list_models` (lines 64-105): dispatch on the
response shape, collect identifiers, then `sorted(set(models))`.  On an
opaque response whose iteration raises, the names appended before the
exception are kept and the attribute fallback's names are appended after
them (the `models` list persists across the `try`/`except`). -/
def listModelsNormalize (resp : Resp) : List String :=
  let models :=
    match resp with
    | .dict ms m d => collect extractDictShape (pickList ms m d)
    | .list l => collect extractListShape l
    | .iterOk l => collect extractIterShape l
    | .iterFail it _ ms d m =>
        collect extractIterShape it ++ collect extractFallbackShape (pickList ms d m)
  sortedDedup models

/-- Outcome of invoking one model-listing call shape on the client
(lines 43-47): the shape can be structurally absent (the `hasattr` guard
fails and the lambda returns `None`), present but returning `None`,
raising an exception with a message, or returning a directory response. -/
inductive CallResult where
  | absent
  | returnsNone
  | raises (msg : String)
  | returnsResp (r : Resp)
deriving DecidableEq, Repr

/-- The client, characterized by the outcome of each of the three fixed
call shapes of `try_calls` (lines 43-47). -/
structure Client where
  modelsList : CallResult
  listModelsMethod : CallResult
  listMethod : CallResult
deriving DecidableEq, Repr

/-- The fixed, ordered `try_calls` list (lines 43-47), with each shape's
label paired with its outcome on the given client. -/
def try_calls (c : Client) : List (String × CallResult) :=
  [("client.models.list()", c.modelsList),
   ("client.list_models()", c.listModelsMethod),
   ("client.list()", c.listMethod)]

/-- The shape-trying loop (lines 49-56): first non-`None` result is
accepted and the loop breaks; a raising shape appends
`"<name> -> <message>"` to the error list and the loop continues; an
absent shape (lambda returned `None`) continues silently.  Returns the
accepted response, if any, and the collected error records in order. -/
def tryShapes : List (String × CallResult) → Option Resp × List String
  | [] => (none, [])
  | (nm, cr) :: rest =>
    match cr with
    | .returnsResp r => (some r, [])
    | .raises m =>
        let p := tryShapes rest
        (p.1, (nm ++ " -> " ++ m) :: p.2)
    | .absent => tryShapes rest
    | .returnsNone => tryShapes rest

/-- The error record a shape contributes to the diagnostic list: one
record when it raised, none otherwise. -/
def attemptFailure (p : String × CallResult) : Option String :=
  match p.2 with
  | .raises m => some (p.1 ++ " -> " ++ m)
  | _ => none

/-- `list_models` (lines 27-105), after a successful client construction:
returns the normalized model list together with the diagnostic error
records collected while trying the call shapes (surfaced in the sidebar
when no shape succeeded). -/
def list_models (c : Client) : List String × List String :=
  match tryShapes (try_calls c) with
  | (none, errs) => ([], errs)
  | (some r, errs) => (listModelsNormalize r, errs)

/-- Substring test on character lists: does the second list occur
contiguously in the first?  (Python `pat in s`.) -/
def charsHasSub (pat : List Char) : List Char → Bool
  | [] => pat.isEmpty
  | c :: rest => pat.isPrefixOf (c :: rest) || charsHasSub pat rest

/-- Python `pat in s` on strings. -/
def strHasSub (s pat : String) : Bool :=
  charsHasSub pat.data s.data

/-- Python `s.lower()`: lowercase every character. -/
def strLower (s : String) : String :=
  ⟨s.data.map Char.toLower⟩

/-- The three failure categories of the Report Generator's error
translation (spec section 4.2): ModelUnsupportedError, QuotaExceededError,
GenerationFailedError. -/
inductive GenError where
  | modelUnsupported
  | quotaExceeded
  | generationFailed
deriving DecidableEq, Repr

/-- Which category the `except` block of `run_gemini` (lines 222-237)
raises for an exception whose `str(e)` is `msg`: the not-found check runs
first on the lowercased message, then the quota check (`"429"` is tested
on the original message), else the generic failure. -/
def classifyError (msg : String) : GenError :=
  if strHasSub (strLower msg) "not found" ||
      strHasSub (strLower msg) "not supported for generatecontent" then
    GenError.modelUnsupported
  else if strHasSub (strLower msg) "resource_exhausted" ||
      strHasSub (strLower msg) "quota" || strHasSub msg "429" then
    GenError.quotaExceeded
  else
    GenError.generationFailed

/-- A raised Python exception: its class name and its message. -/
structure RaisedError where
  etype : String
  message : String
deriving DecidableEq, Repr

/-- Message of the model-unsupported `RuntimeError` (lines 226-229). -/
def modelUnsupportedMessage : String :=
  "Selected model does not support `generate_content` for this API/version. Call ListModels and choose a model that supports text generation or use a different SDK method."

/-- Message of the quota-exhausted `RuntimeError` (lines 231-234). -/
def quotaMessage : String :=
  "Quota exhausted or insufficient billing for this model. Enable billing or request quota for generative requests at https://ai.google.dev/gemini-api/docs/rate-limits and monitor usage at https://ai.dev/usage?tab=rate-limit."

/-- The exception `run_gemini` raises when the generation call raised with
message `msg` and traceback `tb` (lines 222-237): each branch raises a
`RuntimeError`, differing only in its message. -/
def run_gemini_error (msg tb : String) : RaisedError :=
  if strHasSub (strLower msg) "not found" ||
      strHasSub (strLower msg) "not supported for generatecontent" then
    { etype := "RuntimeError", message := modelUnsupportedMessage }
  else if strHasSub (strLower msg) "resource_exhausted" ||
      strHasSub (strLower msg) "quota" || strHasSub msg "429" then
    { etype := "RuntimeError", message := quotaMessage }
  else
    { etype := "RuntimeError",
      message := "Unexpected error calling model: " ++ msg ++ "\n\n" ++ tb }

/-- A generation-call response object: optional `text` and `content`
fields/attributes (`none` = absent or `None`) and its generic string
rendering `str(response)`. -/
structure GenResponse where
  text : Option String
  content : Option String
  strForm : String
deriving DecidableEq, Repr

/-- Successful-path return value of `run_gemini` (line 220):
`getattr(response, "text", None) or getattr(response, "content", None) or
str(response)`. -/
def extract_response_text (r : GenResponse) : String :=
  if pyTruthy r.text then r.text.getD ""
  else if pyTruthy r.content then r.content.getD ""
  else r.strForm

/-- A block of the exported word document: the topic heading or one body
paragraph. -/
inductive Block where
  | heading (s : String)
  | para (s : String)
deriving DecidableEq, Repr

/-- Whether a block is a heading. -/
def Block.isHeading : Block → Bool
  | .heading _ => true
  | .para _ => false

/-- `make_word_document` (lines 240-254), as the sequence of blocks added
to the document: one topic heading, then, for each segment of the body
split on `"\n\n"`, the stripped segment as a paragraph when non-empty.
(`String.trim` models Python `str.strip()`.) -/
def make_word_document (topic content : String) : List Block :=
  Block.heading topic ::
    (content.splitOn "\n\n").filterMap fun block =>
      let b := block.trim
      if b.isEmpty then none else some (Block.para b)

/-- A candidate container value: what a models/model/data key or attribute
of a directory response may hold, including the case `Resp` cannot
represent:
  * `absent`: the key/attribute is missing or holds a falsy value
    (`None`, `[]`, `""`, `0`) — never iterated, thanks to the final
    `or []`;
  * `entries l`: an iterable of individual entries;
  * `nonIterable desc`: a truthy value (e.g. an `int`) whose iteration
    raises a `TypeError`. -/
inductive FieldVal where
  | absent
  | entries (l : List Entry)
  | nonIterable (desc : String)
deriving DecidableEq, Repr

/-- Python truthiness of a candidate container value. -/
def FieldVal.truthy : FieldVal → Bool
  | .absent => false
  | .entries l => !l.isEmpty
  | .nonIterable _ => true

/-- Whether iterating the value cannot raise a `TypeError`. -/
def FieldVal.iterable : FieldVal → Bool
  | .nonIterable _ => false
  | _ => true

/-- Python `a or b or c or []` on candidate container values. -/
def pickFieldVal (a b c : FieldVal) : FieldVal :=
  if a.truthy then a
  else if b.truthy then b
  else if c.truthy then c
  else .entries []

/-- `for m in candidate_list or []` (line 70 / line 97): the entries the
loop yields, or the `TypeError` when the selected value is truthy but not
iterable. -/
def iterateField : FieldVal → Except String (List Entry)
  | .absent => .ok []
  | .entries l => .ok l
  | .nonIterable d => .error ("TypeError: " ++ d ++ " object is not iterable")

/-- Refinement of `Resp` whose candidate containers are `FieldVal`, so a
truthy non-iterable models/model/data field or attribute is
representable. -/
inductive RespF where
  | dict (models model data : FieldVal)
  | list (entries : List Entry)
  | iterOk (entries : List Entry)
  | iterFail (iterated : List Entry) (msg : String)
      (models data model : FieldVal)
deriving DecidableEq, Repr

/-- Normalization step of `list_models` (lines 64-105) over the refined
responses.  `Except.error e` models a `TypeError` raised while iterating
a truthy non-iterable candidate container — at line 70 in the mapping
branch, or at line 97 in the attribute fallback, which sits *inside* the
`except` block — and propagating out of `list_models`, which has no
enclosing handler. -/
def listModelsNormalizeF : RespF → Except String (List String)
  | .dict ms m d =>
    match iterateField (pickFieldVal ms m d) with
    | .error e => .error e
    | .ok l => .ok (sortedDedup (collect extractDictShape l))
  | .list l => .ok (sortedDedup (collect extractListShape l))
  | .iterOk l => .ok (sortedDedup (collect extractIterShape l))
  | .iterFail it _ ms d m =>
    match iterateField (pickFieldVal ms d m) with
    | .error e => .error e
    | .ok l =>
      .ok (sortedDedup (collect extractIterShape it ++
        collect extractFallbackShape l))

/-- View an iterable-only candidate container as a `FieldVal`. -/
def FieldVal.ofOpt : Option (List Entry) → FieldVal
  | none => .absent
  | some l => .entries l

/-- View an iterable-only response as a refined response. -/
def Resp.toF : Resp → RespF
  | .dict ms m d => .dict (.ofOpt ms) (.ofOpt m) (.ofOpt d)
  | .list l => .list l
  | .iterOk l => .iterOk l
  | .iterFail it msg ms d m =>
      .iterFail it msg (.ofOpt ms) (.ofOpt d) (.ofOpt m)

/-- Every candidate container field of the response is iterable, so no
`TypeError` can arise while normalizing it. -/
def RespF.iterableFields : RespF → Bool
  | .dict ms m d => ms.iterable && m.iterable && d.iterable
  | .list _ => true
  | .iterOk _ => true
  | .iterFail _ _ ms d m => ms.iterable && m.iterable && d.iterable

/-! ## Properties of the sort-and-deduplicate step -/

theorem mem_insertSorted {a s : String} {l : List String} :
    a ∈ insertSorted s l ↔ a = s ∨ a ∈ l := by
  induction l with
  | nil => simp [insertSorted]
  | cons t ts ih =>
    by_cases h1 : s = t
    · subst h1
      simp [insertSorted]
    · by_cases h2 : s < t
      · simp [insertSorted, h1, h2]
      · simp [insertSorted, h1, h2, ih]
        all_goals tauto

theorem pairwise_insertSorted {s : String} {l : List String}
    (h : l.Pairwise (· < ·)) : (insertSorted s l).Pairwise (· < ·) := by
  induction l with
  | nil => simp [insertSorted]
  | cons t ts ih =>
    rw [List.pairwise_cons] at h
    obtain ⟨ht, hts⟩ := h
    by_cases h1 : s = t
    · subst h1
      have he : insertSorted s (s :: ts) = s :: ts := by simp [insertSorted]
      rw [he]
      exact List.pairwise_cons.mpr ⟨ht, hts⟩
    · by_cases h2 : s < t
      · simp only [insertSorted, h1, h2, if_true, if_false, ite_true, ite_false]
        refine List.pairwise_cons.mpr ⟨?_, List.pairwise_cons.mpr ⟨ht, hts⟩⟩
        intro x hx
        rcases List.mem_cons.mp hx with rfl | hx
        · exact h2
        · exact lt_trans h2 (ht x hx)
      · simp only [insertSorted, h1, h2, if_false, ite_false]
        have hts' : t < s := lt_of_le_of_ne (not_lt.mp h2) (Ne.symm h1)
        refine List.pairwise_cons.mpr ⟨?_, ih hts⟩
        intro x hx
        rcases mem_insertSorted.mp hx with rfl | hx
        · exact hts'
        · exact ht x hx

theorem pairwise_sortedDedup (l : List String) :
    (sortedDedup l).Pairwise (· < ·) := by
  induction l with
  | nil => simp [sortedDedup]
  | cons t ts ih => exact pairwise_insertSorted ih

/-- C8: For every raw directory response, the set of ModelIdentifier
values returned by the Model Directory Resolver contains no duplicates
and is in lexicographically sorted order. -/
theorem normalize_nodup_sorted (resp : Resp) :
    (listModelsNormalize resp).Nodup ∧
      (listModelsNormalize resp).Sorted (fun a b : String => a ≤ b) := by
  have h : (listModelsNormalize resp).Pairwise (· < ·) := by
    unfold listModelsNormalize
    exact pairwise_sortedDedup _
  exact ⟨h.imp ne_of_lt, h.imp le_of_lt⟩

/-! ## C1: shape-independence of normalization -/

theorem collect_congr {f g : Entry → Option String} {l : List Entry}
    (h : ∀ e ∈ l, f e = g e) : collect f l = collect g l := by
  unfold collect
  induction l with
  | nil => rfl
  | cons e es ih =>
    simp only [List.filterMap_cons]
    rw [h e (List.mem_cons_self e es)]
    rw [ih fun x hx => h x (List.mem_cons_of_mem e hx)]

theorem extract_shapes_agree_obj (e : Entry) (h : e.isObj = true) :
    extractDictShape e = extractListShape e ∧
      extractListShape e = extractIterShape e ∧
      extractIterShape e = extractFallbackShape e := by
  cases e with
  | dict n i => simp [Entry.isObj] at h
  | obj n i =>
    exact ⟨rfl, rfl, rfl⟩

/-- C1 (counterexample): the claim fails as stated — a dict entry exposing
only an `"id"` field yields its identifier in the mapping shape
(line 71 checks `m.get("name") or m.get("id")`) but is dropped by the
bare-sequence shape (line 78 checks only `m.get("name")` for a dict entry),
so semantically equivalent entries do not yield an identical set in every
shape. -/
theorem list_models_shape_disagreement :
    listModelsNormalize (Resp.dict (some [Entry.dict none (some "m")]) none none) = ["m"] ∧
    listModelsNormalize (Resp.list [Entry.dict none (some "m")]) = [] := by
  constructor
  · rfl
  · rfl

/-- C1 (amended): for collections of semantically equivalent
attribute-style (object) entries, presenting them to the normalizer as a
mapping with a models field, as a bare sequence, as a successfully
iterated opaque object, or as an opaque object with a models attribute
after a failed iteration, yields the identical deduplicated,
lexicographically sorted set of identifiers, and each such entry's
identifier is extracted name-then-id identically in every shape.  (For
dict-style entries the bare-sequence and attribute-fallback branches
consult only the `"name"` key, so the claim holds only for object
entries.) -/
theorem list_models_shapes_agree_on_attr_entries (l : List Entry)
    (h : ∀ e ∈ l, e.isObj = true) :
    listModelsNormalize (Resp.dict (some l) none none) = listModelsNormalize (Resp.list l) ∧
    listModelsNormalize (Resp.list l) = listModelsNormalize (Resp.iterOk l) ∧
    listModelsNormalize (Resp.iterOk l) =
      listModelsNormalize (Resp.iterFail [] "iteration failed" (some l) none none) ∧
    ∀ e ∈ l,
      extractDictShape e = extractListShape e ∧
      extractListShape e = extractIterShape e ∧
      extractIterShape e = extractFallbackShape e := by
  refine ⟨?_, ?_, ?_, fun e he => extract_shapes_agree_obj e (h e he)⟩
  · cases l with
    | nil => rfl
    | cons e es =>
      have hp : pickList (some (e :: es)) none none = e :: es := by
        simp [pickList, listTruthy]
      simp only [listModelsNormalize, hp]
      exact congrArg sortedDedup
        (collect_congr fun x hx => (extract_shapes_agree_obj x (h x hx)).1)
  · simp only [listModelsNormalize]
    exact congrArg sortedDedup
      (collect_congr fun x hx => (extract_shapes_agree_obj x (h x hx)).2.1)
  · cases l with
    | nil => rfl
    | cons e es =>
      have hp : pickList (some (e :: es)) none none = e :: es := by
        simp [pickList, listTruthy]
      simp only [listModelsNormalize, hp, collect, List.filterMap_nil, List.nil_append]
      exact congrArg sortedDedup
        (collect_congr fun x hx => (extract_shapes_agree_obj x (h x hx)).2.2)

/-- Witness for C1 (amended) at a one-entry object list. -/
theorem list_models_shapes_agree_on_attr_entries_witness :
    listModelsNormalize (Resp.dict (some [Entry.obj none (some "m")]) none none) =
      listModelsNormalize (Resp.list [Entry.obj none (some "m")]) :=
  (list_models_shapes_agree_on_attr_entries [Entry.obj none (some "m")] (by decide)).1

/-! ## C4, C5: the shape-trying loop -/

theorem tryShapes_all_fail (shapes : List (String × CallResult))
    (h : ∀ p ∈ shapes, p.2 = CallResult.absent ∨ ∃ m, p.2 = CallResult.raises m) :
    tryShapes shapes = (none, shapes.filterMap attemptFailure) := by
  induction shapes with
  | nil => rfl
  | cons q qs ih =>
    have hq := h q (List.mem_cons_self q qs)
    have hrest := ih fun p hp => h p (List.mem_cons_of_mem q hp)
    obtain ⟨nm, cr⟩ := q
    rcases hq with hq | ⟨m, hq⟩ <;> simp at hq <;> subst hq
    · simpa [tryShapes, attemptFailure] using hrest
    · simp [tryShapes, attemptFailure, hrest]

/-- C4: if every model-listing call shape is structurally absent on the
client or raises when invoked, `list_models` returns an empty set of
identifiers, and the diagnostic record list contains exactly one failure
record per shape that raised, in order, and no record for the shapes that
were structurally absent (skipped). -/
theorem list_models_all_fail (c : Client)
    (h : ∀ p ∈ try_calls c,
      p.2 = CallResult.absent ∨ ∃ m, p.2 = CallResult.raises m) :
    (list_models c).1 = [] ∧
      (list_models c).2 = (try_calls c).filterMap attemptFailure := by
  have ht := tryShapes_all_fail (try_calls c) h
  simp [list_models, ht]

/-- Witness for C4: first shape absent, the other two raising. -/
theorem list_models_all_fail_witness :
    (list_models ⟨CallResult.absent, CallResult.raises "boom",
        CallResult.raises "nope"⟩).1 = [] ∧
      (list_models ⟨CallResult.absent, CallResult.raises "boom",
          CallResult.raises "nope"⟩).2 =
        (try_calls ⟨CallResult.absent, CallResult.raises "boom",
            CallResult.raises "nope"⟩).filterMap attemptFailure :=
  list_models_all_fail
    ⟨CallResult.absent, CallResult.raises "boom", CallResult.raises "nope"⟩
    (by
      intro p hp
      simp [try_calls] at hp
      rcases hp with rfl | rfl | rfl
      · exact Or.inl rfl
      · exact Or.inr ⟨"boom", rfl⟩
      · exact Or.inr ⟨"nope", rfl⟩)

/-- C5: in the shape-trying loop, as soon as one shape returns a non-null
directory response, that response is accepted and nothing after it in the
list influences the outcome — the loop's result on the whole list equals
its result on the list truncated right after the first succeeding shape,
provided no earlier shape succeeded. -/
theorem tryShapes_first_success_wins (pre post : List (String × CallResult))
    (nm : String) (r : Resp)
    (h : ∀ p ∈ pre, ∀ r0, p.2 ≠ CallResult.returnsResp r0) :
    (tryShapes (pre ++ (nm, CallResult.returnsResp r) :: post)).1 = some r ∧
      tryShapes (pre ++ (nm, CallResult.returnsResp r) :: post) =
        tryShapes (pre ++ [(nm, CallResult.returnsResp r)]) := by
  induction pre with
  | nil => exact ⟨rfl, rfl⟩
  | cons q qs ih =>
    have hq := h q (List.mem_cons_self q qs)
    obtain ⟨ih1, ih2⟩ := ih fun p hp => h p (List.mem_cons_of_mem q hp)
    obtain ⟨qn, qc⟩ := q
    cases qc with
    | returnsResp r0 => exact absurd rfl (hq r0)
    | raises m =>
      constructor
      · simpa [tryShapes] using ih1
      · simp only [List.cons_append, tryShapes, List.append_eq]
        rw [ih2]
    | absent =>
      exact ⟨by simpa [tryShapes] using ih1, by simpa [tryShapes] using ih2⟩
    | returnsNone =>
      exact ⟨by simpa [tryShapes] using ih1, by simpa [tryShapes] using ih2⟩

/-- Witness for C5: one raising shape before the success, one shape after
it; the result is the succeeding shape's response. -/
theorem tryShapes_first_success_wins_witness :
    (tryShapes ([("client.models.list()", CallResult.raises "x")] ++
        ("client.list_models()", CallResult.returnsResp (Resp.list [])) ::
          [("client.list()", CallResult.returnsResp (Resp.list [Entry.obj (some "z") none]))])).1 =
      some (Resp.list []) ∧
      tryShapes ([("client.models.list()", CallResult.raises "x")] ++
          ("client.list_models()", CallResult.returnsResp (Resp.list [])) ::
            [("client.list()", CallResult.returnsResp (Resp.list [Entry.obj (some "z") none]))]) =
        tryShapes ([("client.models.list()", CallResult.raises "x")] ++
          [("client.list_models()", CallResult.returnsResp (Resp.list []))]) :=
  tryShapes_first_success_wins
    [("client.models.list()", CallResult.raises "x")]
    [("client.list()", CallResult.returnsResp (Resp.list [Entry.obj (some "z") none]))]
    "client.list_models()" (Resp.list [])
    (by
      intro p hp r0
      simp at hp
      subst hp
      simp)

/-! ## C7, C9: robustness of normalization -/

theorem extract_lacksBoth_none (e : Entry) (he : e.lacksBoth = true) :
    extractDictShape e = none ∧ extractListShape e = none ∧
      extractIterShape e = none ∧ extractFallbackShape e = none := by
  cases e with
  | dict n i =>
    cases n with
    | none =>
      cases i with
      | none => exact ⟨rfl, rfl, rfl, rfl⟩
      | some s => simp [Entry.lacksBoth] at he
    | some s => cases i <;> simp [Entry.lacksBoth] at he
  | obj n i =>
    cases n with
    | none =>
      cases i with
      | none => exact ⟨rfl, rfl, rfl, rfl⟩
      | some s => simp [Entry.lacksBoth] at he
    | some s => cases i <;> simp [Entry.lacksBoth] at he

theorem collect_middle_skip (f : Entry → Option String) (pre post : List Entry)
    (e : Entry) (he : f e = none) :
    collect f (pre ++ e :: post) = collect f (pre ++ post) := by
  unfold collect
  simp [List.filterMap_append, List.filterMap_cons, he, pyTruthy]

theorem normalize_dict_single (L : List Entry) :
    listModelsNormalize (Resp.dict (some L) none none) =
      sortedDedup (collect extractDictShape L) := by
  cases L with
  | nil => rfl
  | cons e es => simp [listModelsNormalize, pickList, listTruthy]

theorem normalize_iterFail_single (msg : String) (L : List Entry) :
    listModelsNormalize (Resp.iterFail [] msg (some L) none none) =
      sortedDedup (collect extractFallbackShape L) := by
  cases L with
  | nil => rfl
  | cons e es => simp [listModelsNormalize, pickList, listTruthy, collect]

/-- C7: in every supported response shape, an individual entry exposing
neither a "name" nor an "id" field/attribute is excluded from the
normalized result — inserting such an entry anywhere in the entry list
leaves the normalized result unchanged (and, the normalizer being a total
function, its presence never makes resolution fail). -/
theorem normalize_skips_entry_lacking_name_and_id (pre post : List Entry)
    (e : Entry) (he : e.lacksBoth = true) :
    listModelsNormalize (Resp.dict (some (pre ++ e :: post)) none none) =
        listModelsNormalize (Resp.dict (some (pre ++ post)) none none) ∧
      listModelsNormalize (Resp.list (pre ++ e :: post)) =
        listModelsNormalize (Resp.list (pre ++ post)) ∧
      listModelsNormalize (Resp.iterOk (pre ++ e :: post)) =
        listModelsNormalize (Resp.iterOk (pre ++ post)) ∧
      listModelsNormalize (Resp.iterFail [] "boom" (some (pre ++ e :: post)) none none) =
        listModelsNormalize (Resp.iterFail [] "boom" (some (pre ++ post)) none none) := by
  obtain ⟨h1, h2, h3, h4⟩ := extract_lacksBoth_none e he
  refine ⟨?_, ?_, ?_, ?_⟩
  · rw [normalize_dict_single, normalize_dict_single,
      collect_middle_skip extractDictShape pre post e h1]
  · simp only [listModelsNormalize]
    rw [collect_middle_skip extractListShape pre post e h2]
  · simp only [listModelsNormalize]
    rw [collect_middle_skip extractIterShape pre post e h3]
  · rw [normalize_iterFail_single, normalize_iterFail_single,
      collect_middle_skip extractFallbackShape pre post e h4]

/-- Witness for C7: a name-and-id-less dict entry next to a named object
entry changes nothing. -/
theorem normalize_skips_entry_lacking_name_and_id_witness :
    listModelsNormalize
        (Resp.list ([Entry.obj (some "m") none] ++ Entry.dict none none :: [])) =
      listModelsNormalize (Resp.list ([Entry.obj (some "m") none] ++ [])) :=
  (normalize_skips_entry_lacking_name_and_id
    [Entry.obj (some "m") none] [] (Entry.dict none none) rfl).2.1

theorem fieldTruthy_ofOpt (x : Option (List Entry)) :
    (FieldVal.ofOpt x).truthy = listTruthy x := by
  cases x <;> rfl

theorem iterateField_ofOpt (x : Option (List Entry)) :
    iterateField (FieldVal.ofOpt x) = Except.ok (x.getD []) := by
  cases x <;> rfl

theorem iterate_pick_ofOpt (a b c : Option (List Entry)) :
    iterateField (pickFieldVal (.ofOpt a) (.ofOpt b) (.ofOpt c)) =
      Except.ok (pickList a b c) := by
  unfold pickFieldVal pickList
  rw [fieldTruthy_ofOpt, fieldTruthy_ofOpt, fieldTruthy_ofOpt]
  split_ifs
  · exact iterateField_ofOpt a
  · exact iterateField_ofOpt b
  · exact iterateField_ofOpt c
  · rfl

/-- On responses whose truthy candidate containers are iterable entry
lists, the refined normalizer raises nothing and agrees with
`listModelsNormalize`. -/
theorem normalizeF_extends_normalize (resp : Resp) :
    listModelsNormalizeF resp.toF = Except.ok (listModelsNormalize resp) := by
  cases resp with
  | dict ms m d =>
    simp [Resp.toF, listModelsNormalizeF, iterate_pick_ofOpt, listModelsNormalize]
  | list l => rfl
  | iterOk l => rfl
  | iterFail it msg ms d m =>
    simp [Resp.toF, listModelsNormalizeF, iterate_pick_ofOpt, listModelsNormalize]

theorem iterateField_of_iterable (v : FieldVal) (h : v.iterable = true) :
    ∃ l, iterateField v = Except.ok l := by
  cases v with
  | absent => exact ⟨[], rfl⟩
  | entries l => exact ⟨l, rfl⟩
  | nonIterable d => simp [FieldVal.iterable] at h

theorem pickFieldVal_iterable {a b c : FieldVal} (ha : a.iterable = true)
    (hb : b.iterable = true) (hc : c.iterable = true) :
    (pickFieldVal a b c).iterable = true := by
  unfold pickFieldVal
  split_ifs with h1 h2 h3
  · exact ha
  · exact hb
  · exact hc
  · rfl

/-- C9 (counterexample): the claim fails as stated — normalization is not
total over arbitrary response objects.  A truthy non-iterable models
attribute makes the fallback loop at line 97, *inside* the `except`
block, raise an uncaught `TypeError` that propagates out of
`list_models`; a truthy non-iterable models field does the same at
line 70 in the mapping branch. -/
theorem normalize_nonIterable_raises :
    listModelsNormalizeF (RespF.iterFail [] "iteration error"
        (FieldVal.nonIterable "int") FieldVal.absent FieldVal.absent) =
      Except.error "TypeError: int object is not iterable" ∧
    listModelsNormalizeF (RespF.dict (FieldVal.nonIterable "int")
        FieldVal.absent FieldVal.absent) =
      Except.error "TypeError: int object is not iterable" :=
  ⟨rfl, rfl⟩

/-- C9 (amended): when iterating an opaque response raises, the exception
is caught and normalization falls back to inspecting a models/data/model
attribute of the response, the caught exception's message never
influencing the result; and normalization propagates no exception
provided every truthy candidate container field of the response is an
iterable collection of entries.  (Without that proviso the claim fails:
iterating a truthy non-iterable candidate raises an uncaught `TypeError`
at line 70 or, inside the `except` block, at line 97.) -/
theorem normalizeF_iterFail_fallback_total (resp : RespF)
    (h : resp.iterableFields = true) :
    (∃ l, listModelsNormalizeF resp = Except.ok l) ∧
      ∀ it msg ms d m, resp = RespF.iterFail it msg ms d m →
        (∀ msg2, listModelsNormalizeF resp =
          listModelsNormalizeF (RespF.iterFail it msg2 ms d m)) ∧
        ∀ l, iterateField (pickFieldVal ms d m) = Except.ok l →
          listModelsNormalizeF resp =
            Except.ok (sortedDedup (collect extractIterShape it ++
              collect extractFallbackShape l)) := by
  constructor
  · cases resp with
    | dict ms m d =>
      simp only [RespF.iterableFields, Bool.and_eq_true] at h
      obtain ⟨⟨hms, hm⟩, hd⟩ := h
      obtain ⟨l, hl⟩ := iterateField_of_iterable _ (pickFieldVal_iterable hms hm hd)
      refine ⟨sortedDedup (collect extractDictShape l), ?_⟩
      simp [listModelsNormalizeF, hl]
    | list l => exact ⟨_, rfl⟩
    | iterOk l => exact ⟨_, rfl⟩
    | iterFail it msg ms d m =>
      simp only [RespF.iterableFields, Bool.and_eq_true] at h
      obtain ⟨⟨hms, hm⟩, hd⟩ := h
      obtain ⟨l, hl⟩ := iterateField_of_iterable _ (pickFieldVal_iterable hms hd hm)
      refine ⟨sortedDedup (collect extractIterShape it ++
        collect extractFallbackShape l), ?_⟩
      simp [listModelsNormalizeF, hl]
  · intro it msg ms d m heq
    subst heq
    refine ⟨fun msg2 => rfl, fun l hl => ?_⟩
    simp [listModelsNormalizeF, hl]

/-- Witness for C9 (amended): a failed iteration with a one-entry models
attribute falls back to that attribute. -/
theorem normalizeF_iterFail_fallback_total_witness :
    listModelsNormalizeF (RespF.iterFail [] "boom"
        (FieldVal.entries [Entry.obj (some "m") none])
        FieldVal.absent FieldVal.absent) =
      Except.ok (sortedDedup (collect extractIterShape [] ++
        collect extractFallbackShape [Entry.obj (some "m") none])) :=
  ((normalizeF_iterFail_fallback_total
      (RespF.iterFail [] "boom" (FieldVal.entries [Entry.obj (some "m") none])
        FieldVal.absent FieldVal.absent) rfl).2
    [] "boom" (FieldVal.entries [Entry.obj (some "m") none])
    FieldVal.absent FieldVal.absent rfl).2
    [Entry.obj (some "m") none] rfl

/-! ## C6: document export -/

theorem filterMap_para_eq (l : List String) :
    (l.filterMap fun block =>
      let b := block.trim
      if b.isEmpty then none else some (Block.para b)) =
    ((l.map String.trim).filter fun b => !b.isEmpty).map Block.para := by
  induction l with
  | nil => rfl
  | cons x xs ih =>
    by_cases hx : x.trim.isEmpty
    · simp [List.filterMap_cons, List.filter_cons, hx, ih]
    · simp [List.filterMap_cons, List.filter_cons, hx, ih]

theorem filter_isHeading_map_para (l : List String) :
    (l.map Block.para).filter Block.isHeading = [] := by
  induction l with
  | nil => rfl
  | cons x xs ih => simp [Block.isHeading, ih]

/-- C6: the exported document is exactly one heading block carrying the
topic, followed by one paragraph block per non-empty trimmed
blank-line-separated segment of the body, in original order; blank
segments contribute no block, and the heading is the only heading block
in the document. -/
theorem make_word_document_structure (topic content : String) :
    make_word_document topic content =
        Block.heading topic ::
          (((content.splitOn "\n\n").map String.trim).filter
            fun b => !b.isEmpty).map Block.para ∧
      (make_word_document topic content).filter Block.isHeading =
        [Block.heading topic] := by
  have h1 := filterMap_para_eq (content.splitOn "\n\n")
  constructor
  · unfold make_word_document
    rw [h1]
  · unfold make_word_document
    rw [h1]
    simp [List.filter_cons, Block.isHeading, filter_isHeading_map_para]

/-! ## C2, C3, C10: the Report Generator -/

/-- C2 (counterexample): the claim fails as stated — when the exception
message contains "429" but also contains "not found", the not-found check
at line 225 runs first and `run_gemini` raises the model-unsupported
error, not the quota-exceeded one. -/
theorem classify_429_with_not_found :
    strHasSub "Error 429: model not found" "429" = true ∧
      classifyError "Error 429: model not found" ≠ GenError.quotaExceeded := by
  constructor
  · rfl
  · have h : classifyError "Error 429: model not found" =
        GenError.modelUnsupported := by rfl
    rw [h]
    simp

/-- C2 (amended): for every exception whose message contains "429", the
Report Generator never raises the generic-failure category; it raises the
quota-exceeded category unless the lowercased message also contains a
not-found indicator ("not found" or "not supported for generatecontent"),
in which case the model-unsupported category takes precedence. -/
theorem classify_429_never_generic (msg : String)
    (h : strHasSub msg "429" = true) :
    classifyError msg ≠ GenError.generationFailed ∧
      (strHasSub (strLower msg) "not found" = false →
        strHasSub (strLower msg) "not supported for generatecontent" = false →
        classifyError msg = GenError.quotaExceeded) := by
  by_cases hA : (strHasSub (strLower msg) "not found" ||
      strHasSub (strLower msg) "not supported for generatecontent") = true
  · have hc : classifyError msg = GenError.modelUnsupported := by
      simp only [classifyError]
      rw [if_pos hA]
    constructor
    · rw [hc]
      simp
    · intro na nb
      rw [na, nb] at hA
      simp at hA
  · have hB : (strHasSub (strLower msg) "resource_exhausted" ||
        strHasSub (strLower msg) "quota" || strHasSub msg "429") = true := by
      simp [h]
    have hc : classifyError msg = GenError.quotaExceeded := by
      simp only [classifyError]
      rw [if_neg hA, if_pos hB]
    exact ⟨by rw [hc]; simp, fun _ _ => hc⟩

/-- Witness for C2 (amended) at a plain quota message. -/
theorem classify_429_never_generic_witness :
    classifyError "HTTP 429 Too Many Requests" ≠ GenError.generationFailed ∧
      classifyError "HTTP 429 Too Many Requests" = GenError.quotaExceeded :=
  ⟨(classify_429_never_generic "HTTP 429 Too Many Requests" rfl).1,
    (classify_429_never_generic "HTTP 429 Too Many Requests" rfl).2 rfl rfl⟩

/-- C3 (counterexample): the claim fails as stated — a response whose
`content` attribute is present but equal to the empty string is falsy in
Python, so line 220's `or` chain skips it and returns `str(response)`
instead of the content value. -/
theorem extract_empty_content_falls_back :
    (extract_response_text { text := none, content := some "", strForm := "RESP" } =
      "RESP") ∧
      extract_response_text { text := none, content := some "", strForm := "RESP" } ≠
        "" := by
  constructor
  · rfl
  · intro h
    simp [extract_response_text, pyTruthy] at h
    exact absurd h (by decide)

/-- C3 (amended): for every response object exposing no `text`
field/attribute, the Report Generator returns exactly the value of the
`content` field/attribute unmodified provided that value is non-empty,
and falls back to the generic string rendering of the whole response when
`content` is absent as well. -/
theorem extract_content_only (r : GenResponse) (h1 : r.text = none) :
    (∀ c, r.content = some c → c.isEmpty = false → extract_response_text r = c) ∧
      (r.content = none → extract_response_text r = r.strForm) := by
  constructor
  · intro c hc hne
    simp [extract_response_text, h1, hc, pyTruthy, hne]
  · intro hc
    simp [extract_response_text, h1, hc, pyTruthy]

/-- Witness for C3 (amended) at a content-only response. -/
theorem extract_content_only_witness :
    extract_response_text { text := none, content := some "body", strForm := "RESP" } =
      "body" :=
  (extract_content_only
    { text := none, content := some "body", strForm := "RESP" } rfl).1 "body" rfl rfl

/-- C10: all three generation-failure categories are raised as the same
exception type, `RuntimeError`, so a caller can distinguish them only by
the message text — which does differ between categories. -/
theorem run_gemini_error_single_type (m1 t1 m2 t2 : String) :
    (run_gemini_error m1 t1).etype = "RuntimeError" ∧
      (run_gemini_error m1 t1).etype = (run_gemini_error m2 t2).etype ∧
      (run_gemini_error "not found" "").message ≠
          (run_gemini_error "quota" "").message ∧
        (run_gemini_error "quota" "").message ≠
          (run_gemini_error "other" "").message := by
  have h : ∀ m t : String, (run_gemini_error m t).etype = "RuntimeError" := by
    intro m t
    unfold run_gemini_error
    split
    · rfl
    · split
      · rfl
      · rfl
  refine ⟨h m1 t1, (h m1 t1).trans (h m2 t2).symm, ?_, ?_⟩
  · intro hcontra
    have e1 : (run_gemini_error "not found" "").message =
        modelUnsupportedMessage := by rfl
    have e2 : (run_gemini_error "quota" "").message = quotaMessage := by rfl
    rw [e1, e2] at hcontra
    simp [modelUnsupportedMessage, quotaMessage] at hcontra
  · intro hcontra
    have e2 : (run_gemini_error "quota" "").message = quotaMessage := by rfl
    have e3 : (run_gemini_error "other" "").message =
        "Unexpected error calling model: " ++ "other" ++ "\n\n" ++ "" := by rfl
    rw [e2, e3] at hcontra
    simp [quotaMessage] at hcontra
